import Mathlib

/-!
Verification of the AML virtual machine core (`vm.go` of the `aml`
package): the entity data model, the `execBlock` dispatch loop, the
`Lookup` path resolver, the `Init` lifecycle and the `checkEntities`
static-initialization pass are embedded shallowly and the spec's claims
about them are settled as theorems.

Helpers of the same repository that are not part of the provided source
(`vmConvert`, `scopeVisit`, `scopeFindRelative`, the parser and the
dispatch-table builder) are modelled from the spec; each such definition
carries a doc comment saying so.
-/

/-- Errors that occur while executing AML code (`Error` in the source,
holding a single `message` field). -/
structure VMError where
  message : String
  deriving DecidableEq, Repr

/-- The source's `errConversionFromEmptyString` error value. -/
def errConversionFromEmptyString : VMError :=
  ⟨"vmConvert: conversion from String requires a non-empty value"⟩

/-- The ways control flow can be altered while executing AML opcodes
(`ctrlFlowType` in the source). -/
inductive ctrlFlowType where
  | ctrlFlowTypeNextOpcode
  | ctrlFlowTypeBreak
  | ctrlFlowTypeContinue
  | ctrlFlowTypeFnReturn
  deriving DecidableEq, Repr

/-- AML data objects carried as `interface{}` values in the source:
integers (`uint64`), strings and raw buffer contents. -/
inductive DataObj where
  | integer (n : Nat)
  | strObj (s : String)
  | bufferData (bs : List Nat)
  deriving DecidableEq, Repr

/-- Conversion targets of `vmConvert` (`valueTypeInteger` etc.). -/
inductive valueType where
  | integer
  | str
  | buffer
  deriving DecidableEq, Repr

mutual

/-- A node of the AML namespace tree.  The variants the core
manipulates: scopes (ordered children), methods (callable scopes whose
body is executed lazily), named wrappers holding an argument list, and
buffer entities carrying a size operand plus an optional byte payload
(`nil` vs. allocated `[]byte` is kept as `Option`). -/
inductive Entity where
  | scopeEntity (op : Nat) (name : String) (children : List Entity)
  | methodEntity (op : Nat) (name : String) (body : List Entity)
  | namedEntity (op : Nat) (name : String) (args : List AMLArg)
  | bufferEntity (op : Nat) (size : DataObj) (data : Option (List Nat))

/-- An element of a `namedEntity`'s `args` slice: either another tree
entity or a plain data value (on which the source's `.(Entity)` type
assertion fails). -/
inductive AMLArg where
  | entArg (e : Entity)
  | valArg (v : DataObj)

end

/-- The opcode of an entity (`getOpcode`; every source entity carries an `op`). -/
def getOpcode : Entity → Nat
  | .scopeEntity op _ _ => op
  | .methodEntity op _ _ => op
  | .namedEntity op _ _ => op
  | .bufferEntity op _ _ => op

/-- The per-call execution frame (`execContext` in the source): local
variables, incoming method arguments, the control-flow signal and the
carried intermediate/return value.  The source fixes the capacities at 8
locals and 7 method arguments; the claims below do not exercise the
capacity bound, so the slots are kept as lists. -/
structure execContext where
  localArg : List (Option DataObj)
  methodArg : List (Option DataObj)
  ctrlFlow : ctrlFlowType
  retVal : Option DataObj
  deriving DecidableEq, Repr

/-- An opcode handler (`opHandler`): it may mutate the context and may
report an error, modelled as returning the updated context paired with
an optional error. -/
def opHandler : Type := execContext → Entity → execContext × Option VMError

/-- From the source, `execBlock`: run the block's children in order
through the dispatch table `jt` while the context's control-flow signal
stays `ctrlFlowTypeNextOpcode`; stop without error on any other signal,
stop with the handler's error as soon as one is reported.  The source's
indexed `for` loop over `block.Children()` is rendered as structural
recursion over the child list. -/
def execBlock (jt : Nat → opHandler) (ctx : execContext) :
    List Entity → execContext × Option VMError
  | [] => (ctx, none)
  | instr :: rest =>
    if ctx.ctrlFlow = ctrlFlowType.ctrlFlowTypeNextOpcode then
      match jt (getOpcode instr) ctx instr with
      | (ctx1, some err) => (ctx1, some err)
      | (ctx1, none) => execBlock jt ctx1 rest
    else (ctx, none)

/-- A clean run: every instruction of the list is executed in order,
each from a context whose signal is `NextOpcode`, and no handler
errors. -/
inductive RunsCleanly (jt : Nat → opHandler) :
    execContext → List Entity → execContext → Prop where
  | nil : ∀ ctx, RunsCleanly jt ctx [] ctx
  | cons : ∀ ctx instr rest ctx1 ctx2,
      ctx.ctrlFlow = ctrlFlowType.ctrlFlowTypeNextOpcode →
      jt (getOpcode instr) ctx instr = (ctx1, none) →
      RunsCleanly jt ctx1 rest ctx2 →
      RunsCleanly jt ctx (instr :: rest) ctx2

/-- A trivial dispatch table used to instantiate the block-execution
theorems at concrete inputs. -/
def haltHandler : Nat → opHandler :=
  fun _ => fun ctx _ => ({ ctx with ctrlFlow := ctrlFlowType.ctrlFlowTypeFnReturn }, none)

/-- A sample execution context whose signal is `Break`. -/
def ctxBreak : execContext :=
  { localArg := [], methodArg := [],
    ctrlFlow := ctrlFlowType.ctrlFlowTypeBreak, retVal := none }

/-- Modelled from the spec: `vmConvert` is not part of the provided
source.  Per the spec it coerces values among Integer, String and
Buffer; conversion from an empty String is always rejected, and Integer
targets use the VM's fixed integer width.  The static-initialization
pass only exercises the Integer target; the exact digit/byte readings
chosen here for non-Integer sources are inessential to the claims,
which depend only on whether the conversion succeeds and, if so, on the
integer it yields. -/
def vmConvert (width : Nat) (val : DataObj) (target : valueType) :
    Except VMError DataObj :=
  match val with
  | .strObj "" => .error errConversionFromEmptyString
  | _ =>
    match target with
    | .integer =>
      match val with
      | .integer n => .ok (.integer n)
      | .strObj s =>
        .ok (.integer (s.foldl (fun acc c => (acc * 10 + c.toNat % 10) % 2 ^ width) 0))
      | .bufferData bs =>
        .ok (.integer ((bs.take (width / 8)).foldr (fun b acc => acc * 256 + b) 0 % 2 ^ width))
    | _ => .ok val

/-- The `bufferEntity` branch of the `checkEntities` visitor: evaluate
the size operand as an Integer (recording the error and leaving the
payload untouched on failure), coerce the result with the source's
unchecked `size.(uint64)` type assertion (`none` models the panic when
the assertion fails), allocate a zero-filled payload when the payload
is `nil`, and zero-pad a payload shorter than the computed size. -/
def checkBuffer (width : Nat) (size : DataObj) (data : Option (List Nat)) :
    Option (Option (List Nat) × Option VMError) :=
  match vmConvert width size valueType.integer with
  | .error e => some (data, some e)
  | .ok v =>
    match v with
    | .integer sizeAsInt =>
      let d := match data with
        | none => List.replicate sizeAsInt 0
        | some d0 => d0
      let d2 := if d.length < sizeAsInt then
          d ++ List.replicate (sizeAsInt - d.length) 0
        else d
      some (some d2, none)
    | _ => none

mutual

/-- The `checkEntities` visitor fused with the namespace traversal
(`Visit`/`scopeVisit` are modelled from the spec: depth-first,
parent-before-children, sibling order = insertion order, and a `false`
visitor result prunes the descent; scopes and methods are the entities
with children).  The visitor short-circuits once an error is recorded,
unwraps one level of `namedEntity` (the source's unconditional
`namedEnt.args[0]` index is a panic — `none` — on an empty argument
list), prunes traversal at methods, and sizes buffer entities.
Returns the updated subtree together with the threaded error. -/
def checkEnt (width : Nat) (ent : Entity) (err : Option VMError) :
    Option (Entity × Option VMError) :=
  match err with
  | some e => some (ent, some e)
  | none =>
    match ent with
    | .scopeEntity op name children =>
      match checkEntList width children none with
      | none => none
      | some (children2, err2) => some (.scopeEntity op name children2, err2)
    | .methodEntity op name body => some (.methodEntity op name body, none)
    | .namedEntity op name args =>
      match args with
      | [] => none
      | arg0 :: rest =>
        match arg0 with
        | .entArg nested =>
          match nested with
          | .methodEntity mop mname mbody =>
            some (.namedEntity op name (.entArg (.methodEntity mop mname mbody) :: rest), none)
          | .bufferEntity bop bsize bdata =>
            match checkBuffer width bsize bdata with
            | none => none
            | some (bdata2, err2) =>
              some (.namedEntity op name (.entArg (.bufferEntity bop bsize bdata2) :: rest), err2)
          | .scopeEntity sop sname sch =>
            some (.namedEntity op name (.entArg (.scopeEntity sop sname sch) :: rest), none)
          | .namedEntity nop nname nargs =>
            some (.namedEntity op name (.entArg (.namedEntity nop nname nargs) :: rest), none)
        | .valArg v => some (.namedEntity op name (.valArg v :: rest), none)
    | .bufferEntity bop bsize bdata =>
      match checkBuffer width bsize bdata with
      | none => none
      | some (bdata2, err2) => some (.bufferEntity bop bsize bdata2, err2)

/-- Sibling-list form of the fused traversal: entities are visited in
insertion order with the visitor error threaded left to right. -/
def checkEntList (width : Nat) (ents : List Entity) (err : Option VMError) :
    Option (List Entity × Option VMError) :=
  match ents with
  | [] => some ([], err)
  | e :: rest =>
    match checkEnt width e err with
    | none => none
    | some (e2, err2) =>
      match checkEntList width rest err2 with
      | none => none
      | some (rest2, err3) => some (e2 :: rest2, err3)

end

mutual

/-- The spec's data-model invariant on trees the parser hands over:
every `namedEntity` holds at least its one payload argument. -/
def wellFormedEnt : Entity → Bool
  | .scopeEntity _ _ children => wellFormedList children
  | .methodEntity _ _ body => wellFormedList body
  | .namedEntity _ _ args => !args.isEmpty && wellFormedArgs args
  | .bufferEntity _ _ _ => true

/-- Conjunction of `wellFormedEnt` over a list of siblings. -/
def wellFormedList : List Entity → Bool
  | [] => true
  | e :: rest => wellFormedEnt e && wellFormedList rest

/-- Conjunction of `wellFormedEnt` over an argument list. -/
def wellFormedArgs : List AMLArg → Bool
  | [] => true
  | .entArg e :: rest => wellFormedEnt e && wellFormedArgs rest
  | .valArg _ :: rest => wellFormedArgs rest

end

/-- The payload of a buffer entity after the static-initialization
pass, when its size operand evaluated to `s`: a `nil` payload is
replaced by `s` zero bytes, and a payload shorter than `s` is
zero-padded up to `s` (mirrors the source's allocate-then-pad steps). -/
def bufferDataAfter (s : Nat) (data : Option (List Nat)) : List Nat :=
  let d := data.getD (List.replicate s 0)
  if d.length < s then d ++ List.replicate (s - d.length) 0 else d

/-- A raw firmware table header.  The source takes `table.SDTHeader`
values from the `table` package (outside the provided source); the only
field the core reads is `Revision` (a `uint8`). -/
structure TableHeader where
  revision : Nat
  deriving DecidableEq, Repr

/-- A parser decode error: `ParseAML` reports a module name and a
message (`err.Module` and `err.Error()` in the source). -/
structure AMLParseError where
  module : String
  message : String
  deriving DecidableEq, Repr

/-- Modelled from the spec: the parser's `ParseAML(handle, name,
header)` is not part of the provided source; per the spec it populates
the shared namespace tree under the root or reports a
`(module, message)` decode error.  It is threaded through `Init` as an
explicit function from the handle, name, header and current root to the
new root or the error. -/
def ParseAMLFn : Type :=
  Nat → String → TableHeader → Entity → Except AMLParseError Entity

/-- The VM state the provided source manipulates: the namespace root,
the memoized integer width (`int`, zero-valued until assigned) and the
dispatch table, which `populateJumpTable` (outside the provided source)
builds once — modelled as a flag recording whether it has been built. -/
structure VMState where
  rootNS : Entity
  sizeOfIntInBits : Nat
  jumpTablePopulated : Bool

/-- The opcode tag of scope entities (`opScope`); its numeric value is
defined outside the provided source and is irrelevant here. -/
def opScope : Nat := 0

/-- From the source, `defaultACPIScopes`: the root scope `\` with the
five predefined ACPI scopes appended in order. -/
def defaultACPIScopes : Entity :=
  Entity.scopeEntity opScope "\\"
    [Entity.scopeEntity opScope "_GPE" [],
     Entity.scopeEntity opScope "_PR_" [],
     Entity.scopeEntity opScope "_SB_" [],
     Entity.scopeEntity opScope "_SI_" [],
     Entity.scopeEntity opScope "_TZ_" []]

/-- From the source, `NewVM`: the fresh VM holds the default scope
hierarchy; `sizeOfIntInBits` keeps its zero value and the dispatch
table is not yet built. -/
def NewVM : VMState :=
  { rootNS := defaultACPIScopes, sizeOfIntInBits := 0, jumpTablePopulated := false }

/-- From the source, `checkEntities`, lifted to the VM state: run the
fused traversal on the root with a throwaway context built from the VM
(whose integer width feeds `vmConvert`) and surface the first recorded
error; `none` models a panic. -/
def checkEntities (vm : VMState) : Option (VMState × Option VMError) :=
  match checkEnt vm.sizeOfIntInBits vm.rootNS none with
  | none => none
  | some (root2, err) => some ({ vm with rootNS := root2 }, err)

/-- The table loop of `Init`: for each `(tableHandle, tableName)` pair,
ask the resolver for the table; skip the role when absent; on a decode
error stop with the parser's module-prefixed message; after parsing the
DSDT set the integer width to 64 when the header revision is at least 2
and to 32 otherwise. -/
def InitLoop (resolve : String → Option TableHeader) (parse : ParseAMLFn)
    (tables : List (Nat × String)) (vm : VMState) : VMState × Option VMError :=
  match tables with
  | [] => (vm, none)
  | (tableHandle, tableName) :: rest =>
    match resolve tableName with
    | none => InitLoop resolve parse rest vm
    | some header =>
      match parse (tableHandle + 1) tableName header vm.rootNS with
      | .error e => (vm, some ⟨e.module ++ ": " ++ e.message⟩)
      | .ok root2 =>
        let vm1 : VMState := { vm with rootNS := root2 }
        let vm2 : VMState :=
          if tableName = "DSDT" then
            { vm1 with sizeOfIntInBits := if 2 ≤ header.revision then 64 else 32 }
          else vm1
        InitLoop resolve parse rest vm2

/-- From the source, `Init`: run the table loop over `DSDT` then `SSDT`
(handles 1 and 2), propagate a decode error immediately, otherwise
build the dispatch table and run the static-initialization pass. -/
def Init (resolve : String → Option TableHeader) (parse : ParseAMLFn)
    (vm : VMState) : Option (VMState × Option VMError) :=
  match InitLoop resolve parse [(0, "DSDT"), (1, "SSDT")] vm with
  | (vm1, some e) => some (vm1, some e)
  | (vm1, none) => checkEntities { vm1 with jumpTablePopulated := true }

/-- The name of an entity (buffer entities are unnamed). -/
def getName : Entity → String
  | .scopeEntity _ name _ => name
  | .methodEntity _ name _ => name
  | .namedEntity _ name _ => name
  | .bufferEntity _ _ _ => ""

/-- The children a traversal descends into: a scope's child list and a
method's body; named wrappers and buffers have none. -/
def entChildren : Entity → List Entity
  | .scopeEntity _ _ children => children
  | .methodEntity _ _ body => body
  | .namedEntity _ _ _ => []
  | .bufferEntity _ _ _ => []

/-- The child of `ent` whose name equals the path segment, if any. -/
def findChildNamed (ent : Entity) (seg : String) : Option Entity :=
  (entChildren ent).find? (fun c => getName c = seg)

/-- Modelled from the spec: `scopeFindRelative` is not part of the
provided source; per the spec a relative path is a sequence of
fixed-width four-character name segments consumed one at a time from
the current scope, and an unknown segment yields "not found" (`none`)
without error. -/
def scopeFindRelative (ent : Entity) (rel : List Char) : Option Entity :=
  match rel with
  | [] => some ent
  | c :: rest =>
    match findChildNamed ent (String.mk (List.take 4 (c :: rest))) with
    | none => none
    | some child => scopeFindRelative child (List.drop 4 (c :: rest))
termination_by rel.length
decreasing_by simp only [List.length_drop, List.length_cons]; omega

/-- From the source, `Lookup`: `nil` for an empty path or one not
starting with the root separator `\`; the root scope for the
single-character root path; otherwise the remainder is resolved
relative to the root. -/
def Lookup (vm : VMState) (absPath : String) : Option Entity :=
  match absPath.data with
  | [] => none
  | c :: rest =>
    if c ≠ '\\' then none
    else if rest.isEmpty then some vm.rootNS
    else scopeFindRelative vm.rootNS rest

/-- A resolver exposing only a revision-2 DSDT. -/
def rDSDT : String → Option TableHeader :=
  fun name => if name = "DSDT" then some ⟨2⟩ else none

/-- A parser stub that decodes successfully and leaves the tree as is. -/
def idParse : ParseAMLFn := fun _ _ _ root => .ok root

/-- A resolver with no tables at all. -/
def emptyResolver : String → Option TableHeader := fun _ => none

/-- The VM state after `Init` with `rDSDT`/`idParse` on a fresh VM. -/
def vmInit64 : VMState :=
  { rootNS := defaultACPIScopes, sizeOfIntInBits := 64, jumpTablePopulated := true }

/-- A parser stub that always reports a decode error. -/
def failParse : ParseAMLFn := fun _ _ _ _ => .error ⟨"aml", "invalid opcode"⟩

/-- C1: `execBlock` executes the child instructions one at a time in
list order through the dispatch table, continuing only while the
control-flow signal equals `NextOpcode`; it returns `nil` as soon as a
non-`NextOpcode` signal is observed, and returns the first handler
error, executing no further instruction of the block in either case. -/
theorem execBlock_dispatch_loop (jt : Nat → opHandler) (ctx : execContext)
    (l : List Entity) :
    ∃ pre suf ctx1, l = pre ++ suf ∧ RunsCleanly jt ctx pre ctx1 ∧
      ((suf = [] ∧ execBlock jt ctx l = (ctx1, none)) ∨
       (∃ instr rest, suf = instr :: rest ∧
         ((ctx1.ctrlFlow ≠ ctrlFlowType.ctrlFlowTypeNextOpcode ∧
             execBlock jt ctx l = (ctx1, none)) ∨
          (ctx1.ctrlFlow = ctrlFlowType.ctrlFlowTypeNextOpcode ∧
           ∃ ctx2 e, jt (getOpcode instr) ctx1 instr = (ctx2, some e) ∧
             execBlock jt ctx l = (ctx2, some e))))) := by
  induction l generalizing ctx with
  | nil =>
    exact ⟨[], [], ctx, rfl, RunsCleanly.nil ctx, Or.inl ⟨rfl, rfl⟩⟩
  | cons instr rest ih =>
    by_cases hflow : ctx.ctrlFlow = ctrlFlowType.ctrlFlowTypeNextOpcode
    · rcases hres : jt (getOpcode instr) ctx instr with ⟨ctx1, errOpt⟩
      cases errOpt with
      | some e =>
        refine ⟨[], instr :: rest, ctx, rfl, RunsCleanly.nil ctx, ?_⟩
        refine Or.inr ⟨instr, rest, rfl, Or.inr ⟨hflow, ctx1, e, hres, ?_⟩⟩
        simp [execBlock, hflow, hres]
      | none =>
        rcases ih ctx1 with ⟨pre, suf, ctxE, hsplit, hclean, hrest⟩
        refine ⟨instr :: pre, suf, ctxE, by simp [hsplit],
          RunsCleanly.cons ctx instr pre ctx1 ctxE hflow hres hclean, ?_⟩
        have hstep : execBlock jt ctx (instr :: rest) = execBlock jt ctx1 rest := by
          simp [execBlock, hflow, hres]
        rcases hrest with ⟨hsuf, hrun⟩ | ⟨i2, r2, hsuf, hcase⟩
        · exact Or.inl ⟨hsuf, by rw [hstep]; exact hrun⟩
        · refine Or.inr ⟨i2, r2, hsuf, ?_⟩
          rcases hcase with ⟨hne, hrun⟩ | ⟨heq, ctx2, e, hjt, hrun⟩
          · exact Or.inl ⟨hne, by rw [hstep]; exact hrun⟩
          · exact Or.inr ⟨heq, ctx2, e, hjt, by rw [hstep]; exact hrun⟩
    · refine ⟨[], instr :: rest, ctx, rfl, RunsCleanly.nil ctx, ?_⟩
      refine Or.inr ⟨instr, rest, rfl, Or.inl ⟨hflow, ?_⟩⟩
      simp [execBlock, hflow]

/-- C10: when the control-flow signal is already non-`NextOpcode` on
entry, `execBlock` executes zero instructions, returns `nil`, and
leaves the context unchanged. -/
theorem execBlock_noop_on_signal (jt : Nat → opHandler) (ctx : execContext)
    (l : List Entity)
    (h : ctx.ctrlFlow ≠ ctrlFlowType.ctrlFlowTypeNextOpcode) :
    execBlock jt ctx l = (ctx, none) := by
  cases l with
  | nil => rfl
  | cons instr rest => simp [execBlock, h]

/-- Witness for C10: a context carrying the `Break` signal runs a
one-instruction block without executing it. -/
theorem execBlock_noop_on_signal_witness :
    execBlock haltHandler ctxBreak [Entity.scopeEntity 0 "AAAA" []] = (ctxBreak, none) :=
  execBlock_noop_on_signal haltHandler ctxBreak
    [Entity.scopeEntity 0 "AAAA" []] (by decide)

lemma checkEnt_absorb (width : Nat) (ent : Entity) (e : VMError) :
    checkEnt width ent (some e) = some (ent, some e) := by
  cases ent <;> simp [checkEnt]

lemma checkEntList_absorb (width : Nat) (l : List Entity) (e : VMError) :
    checkEntList width l (some e) = some (l, some e) := by
  induction l with
  | nil => simp [checkEntList]
  | cons x rest ih => simp [checkEntList, checkEnt_absorb, ih]

/-- C9: the static-initialization visitor returns `false` on every
`Method` entity — including a method wrapped one level inside a
`NamedEntity` — so traversal never descends into a method body and no
entity inside one is mutated: the whole method node comes back
unchanged from the pass. -/
theorem checkEntities_prunes_methods (width mop : Nat) (mname : String)
    (mbody : List Entity) (err : Option VMError) :
    checkEnt width (Entity.methodEntity mop mname mbody) err
      = some (Entity.methodEntity mop mname mbody, err)
    ∧ ∀ (op2 : Nat) (name2 : String) (rest : List AMLArg),
      checkEnt width
          (Entity.namedEntity op2 name2
            (AMLArg.entArg (Entity.methodEntity mop mname mbody) :: rest)) err
        = some (Entity.namedEntity op2 name2
            (AMLArg.entArg (Entity.methodEntity mop mname mbody) :: rest), err) := by
  cases err <;> exact ⟨by simp [checkEnt], fun op2 name2 rest => by simp [checkEnt]⟩

lemma getD_replicate_zero (k i : Nat) (dflt : Nat) (h : i < k) :
    (List.replicate k (0 : Nat)).getD i dflt = 0 := by
  induction k generalizing i with
  | zero => omega
  | succ k ih =>
    cases i with
    | zero => simp [List.replicate, List.getD]
    | succ i => simpa [List.replicate, List.getD] using ih i (by omega)

/-- C2: for a buffer entity whose size operand evaluates (via
`vmConvert` to Integer) to `s`, with initial payload of length `L`
(a `nil` payload counting as `L = 0`): the pass succeeds, the resulting
payload has length `max s L`, bytes at positions `[L, s)` are zero when
`L < s`, bytes `[0, L)` are unchanged, and the whole payload is
untouched when `L ≥ s`. -/
theorem checkEntities_buffer_sizing (width bop : Nat) (size : DataObj)
    (data : Option (List Nat)) (s : Nat)
    (h : vmConvert width size valueType.integer = .ok (.integer s)) :
    checkEnt width (Entity.bufferEntity bop size data) none
      = some (Entity.bufferEntity bop size (some (bufferDataAfter s data)), none)
    ∧ (bufferDataAfter s data).length = max s (data.getD []).length
    ∧ (∀ i, (data.getD []).length ≤ i → i < s → (bufferDataAfter s data).getD i 1 = 0)
    ∧ (∀ d0, data = some d0 → ∀ i, i < d0.length →
        (bufferDataAfter s data).getD i 1 = d0.getD i 1)
    ∧ (∀ d0, data = some d0 → s ≤ d0.length → bufferDataAfter s data = d0) := by
  refine ⟨?_, ?_, ?_, ?_, ?_⟩
  · cases data <;> simp [checkEnt, checkBuffer, h, bufferDataAfter]
  · cases data with
    | none => simp [bufferDataAfter]
    | some d0 =>
      by_cases hlen : d0.length < s <;> simp [bufferDataAfter, hlen] <;> omega
  · intro i hL hs
    cases data with
    | none =>
      simp only [bufferDataAfter, Option.getD_none, List.length_replicate,
        lt_irrefl, if_false]
      exact getD_replicate_zero s i 1 hs
    | some d0 =>
      simp only [Option.getD_some] at hL
      have hlen : d0.length < s := by omega
      simp only [bufferDataAfter, Option.getD_some, hlen, if_true]
      rw [List.getD_append_right _ _ _ _ hL]
      exact getD_replicate_zero (s - d0.length) (i - d0.length) 1 (by omega)
  · intro d0 hd i hi
    subst hd
    by_cases hlen : d0.length < s
    · simp only [bufferDataAfter, Option.getD_some, hlen, if_true]
      exact List.getD_append _ _ _ _ hi
    · simp [bufferDataAfter, hlen]
  · intro d0 hd hs
    subst hd
    simp [bufferDataAfter, show ¬ d0.length < s by omega]

/-- Witness for C2: a buffer declared with size 4 and two payload bytes
is zero-padded to four bytes by the pass. -/
theorem checkEntities_buffer_sizing_witness :
    checkEnt 64 (Entity.bufferEntity 0 (DataObj.integer 4) (some [7, 8])) none
      = some (Entity.bufferEntity 0 (DataObj.integer 4)
          (some (bufferDataAfter 4 (some [7, 8]))), none) :=
  (checkEntities_buffer_sizing 64 0 (DataObj.integer 4) (some [7, 8]) 4 rfl).1

lemma vmConvert_integer_shape (width : Nat) (v d : DataObj)
    (h : vmConvert width v valueType.integer = .ok d) : ∃ n, d = .integer n := by
  cases v with
  | integer n => simp [vmConvert] at h; exact ⟨n, h.symm⟩
  | strObj s =>
    by_cases hs : s = "" <;> simp [vmConvert, hs] at h
    exact ⟨_, h.symm⟩
  | bufferData bs => simp [vmConvert] at h; exact ⟨_, h.symm⟩

lemma checkBuffer_ne_none (width : Nat) (size : DataObj)
    (data : Option (List Nat)) : checkBuffer width size data ≠ none := by
  unfold checkBuffer
  cases h : vmConvert width size valueType.integer with
  | error e => simp
  | ok v =>
    obtain ⟨n, rfl⟩ := vmConvert_integer_shape width size v h
    simp

mutual

theorem checkEnt_ne_none (width : Nat) (ent : Entity)
    (h : wellFormedEnt ent = true) (err : Option VMError) :
    checkEnt width ent err ≠ none := by
  cases err with
  | some e => rw [checkEnt_absorb]; simp
  | none =>
    cases ent with
    | scopeEntity op name children =>
      have hch : wellFormedList children = true := by
        simpa [wellFormedEnt] using h
      have := checkEntList_ne_none width children hch none
      simp only [checkEnt]
      cases hres : checkEntList width children none with
      | none => exact absurd hres this
      | some p => cases p; simp
    | methodEntity op name body => simp [checkEnt]
    | namedEntity op name args =>
      cases args with
      | nil => simp [wellFormedEnt] at h
      | cons arg0 rest =>
        cases arg0 with
        | entArg nested =>
          cases nested with
          | scopeEntity sop sname sch => simp [checkEnt]
          | methodEntity mop mname mbody => simp [checkEnt]
          | namedEntity nop nname nargs => simp [checkEnt]
          | bufferEntity bop bsize bdata =>
            have := checkBuffer_ne_none width bsize bdata
            simp only [checkEnt]
            cases hres : checkBuffer width bsize bdata with
            | none => exact absurd hres this
            | some p => cases p; simp
        | valArg v => simp [checkEnt]
    | bufferEntity bop bsize bdata =>
      have := checkBuffer_ne_none width bsize bdata
      simp only [checkEnt]
      cases hres : checkBuffer width bsize bdata with
      | none => exact absurd hres this
      | some p => cases p; simp
termination_by sizeOf ent

theorem checkEntList_ne_none (width : Nat) (l : List Entity)
    (h : wellFormedList l = true) (err : Option VMError) :
    checkEntList width l err ≠ none := by
  cases l with
  | nil => simp [checkEntList]
  | cons e rest =>
    have he : wellFormedEnt e = true := by
      simp [wellFormedList, Bool.and_eq_true] at h; exact h.1
    have hr : wellFormedList rest = true := by
      simp [wellFormedList, Bool.and_eq_true] at h; exact h.2
    have h1 := checkEnt_ne_none width e he err
    simp only [checkEntList]
    cases hres : checkEnt width e err with
    | none => exact absurd hres h1
    | some p =>
      cases p with
      | mk e2 err2 =>
        have h2 := checkEntList_ne_none width rest hr err2
        cases hres2 : checkEntList width rest err2 with
        | none => exact absurd hres2 h2
        | some q => cases q; simp [hres2]
termination_by sizeOf l

end

/-- C3: the static-initialization pass never panics on any entity tree
the parser can hand over: the unconditional `namedEnt.args[0]` index is
safe because (per the data model) every `namedEntity` carries its one
payload argument, and the unchecked `size.(uint64)` assertion is safe
because `vmConvert` to the Integer target only ever succeeds with an
integer result.  `none` is the embedding's panic outcome. -/
theorem checkEntities_no_panic :
    (∀ (width : Nat) (v d : DataObj),
        vmConvert width v valueType.integer = .ok d → ∃ n, d = .integer n)
    ∧ (∀ (width : Nat) (ent : Entity), wellFormedEnt ent = true →
        ∀ err, checkEnt width ent err ≠ none) :=
  ⟨vmConvert_integer_shape,
   fun width ent h err => checkEnt_ne_none width ent h err⟩

/-- Witness for C3: a named entity wrapping a sized buffer passes the
static-initialization pass without the panic outcome. -/
theorem checkEntities_no_panic_witness :
    checkEnt 64
        (Entity.namedEntity 0 "BUF0"
          [AMLArg.entArg (Entity.bufferEntity 0 (DataObj.integer 2) none)]) none
      ≠ none :=
  checkEntities_no_panic.2 64
    (Entity.namedEntity 0 "BUF0"
      [AMLArg.entArg (Entity.bufferEntity 0 (DataObj.integer 2) none)])
    (by simp [wellFormedEnt, wellFormedArgs]) none

lemma checkEntList_append (width : Nat) (l1 l2 : List Entity)
    (err : Option VMError) :
    checkEntList width (l1 ++ l2) err =
      (checkEntList width l1 err).bind (fun p =>
        (checkEntList width l2 p.2).map (fun q => (p.1 ++ q.1, q.2))) := by
  induction l1 generalizing err with
  | nil =>
    cases h : checkEntList width l2 err with
    | none => simp [checkEntList, h]
    | some q => cases q; simp [checkEntList, h]
  | cons e rest ih =>
    cases hres : checkEnt width e err with
    | none => simp [checkEntList, hres]
    | some p =>
      cases p with
      | mk e2 err2 =>
        simp only [List.cons_append, checkEntList, hres, List.append_eq]
        rw [ih err2]
        cases hres2 : checkEntList width rest err2 with
        | none => simp
        | some q =>
          cases q with
          | mk rest2 err3 =>
            cases hres3 : checkEntList width l2 err3 with
            | none => simp [hres3]
            | some u => cases u; simp [hres3]

/-- C7: if evaluating a buffer entity's size operand fails, the pass
records that first error, leaves the failing buffer's payload
untouched, and every entity visited after the failing one comes back
from the traversal unchanged — once the error is set the visitor
performs no further classification, allocation or padding — and the
recorded error becomes the pass's, and hence `Init`'s, result. -/
theorem checkEntities_stops_on_first_error :
    (∀ (width : Nat) (ent : Entity) (e : VMError),
        checkEnt width ent (some e) = some (ent, some e))
    ∧ (∀ (width bop : Nat) (pre pre2 rest : List Entity) (bsize : DataObj)
        (bdata : Option (List Nat)) (e : VMError),
        checkEntList width pre none = some (pre2, none) →
        vmConvert width bsize valueType.integer = .error e →
        checkEntList width (pre ++ Entity.bufferEntity bop bsize bdata :: rest) none
          = some (pre2 ++ Entity.bufferEntity bop bsize bdata :: rest, some e))
    ∧ (∀ (r : String → Option TableHeader) (p : ParseAMLFn) (vm : VMState)
        (root2 : Entity) (e : VMError),
        r "DSDT" = none → r "SSDT" = none →
        checkEnt vm.sizeOfIntInBits vm.rootNS none = some (root2, some e) →
        Init r p vm
          = some ({ vm with rootNS := root2, jumpTablePopulated := true }, some e)) := by
  refine ⟨checkEnt_absorb, ?_, ?_⟩
  · intro width bop pre pre2 rest bsize bdata e hpre hconv
    rw [checkEntList_append, hpre]
    have hbuf : checkEnt width (Entity.bufferEntity bop bsize bdata) none
        = some (Entity.bufferEntity bop bsize bdata, some e) := by
      simp [checkEnt, checkBuffer, hconv]
    simp [checkEntList, hbuf, checkEntList_absorb]
  · intro r p vm root2 e hd hs hcheck
    simp [Init, InitLoop, hd, hs, checkEntities, hcheck]

/-- Witness for C7: a failing empty-string size operand aborts the pass
with the conversion error, leaving the failing buffer and the sibling
visited after it untouched. -/
theorem checkEntities_stops_on_first_error_witness :
    checkEntList 64
        ([Entity.scopeEntity 0 "AAAA" []] ++
          Entity.bufferEntity 0 (DataObj.strObj "") none ::
            [Entity.bufferEntity 0 (DataObj.integer 3) none]) none
      = some ([Entity.scopeEntity 0 "AAAA" []] ++
          Entity.bufferEntity 0 (DataObj.strObj "") none ::
            [Entity.bufferEntity 0 (DataObj.integer 3) none],
          some errConversionFromEmptyString) :=
  checkEntities_stops_on_first_error.2.1 64 0
    [Entity.scopeEntity 0 "AAAA" []] [Entity.scopeEntity 0 "AAAA" []]
    [Entity.bufferEntity 0 (DataObj.integer 3) none]
    (DataObj.strObj "") none errConversionFromEmptyString
    (by simp [checkEntList, checkEnt]) rfl

/-- C4: `Lookup` returns `nil` when the path is empty or does not start
with the root separator `\`; returns the root scope for the
single-character root path; and otherwise resolves the remainder by
relative segment matching from the root, where an unknown segment
yields `nil` without error. -/
theorem Lookup_path_resolution :
    (∀ (vm : VMState) (s : String),
        s = "" ∨ s.data.head? ≠ some '\\' → Lookup vm s = none)
    ∧ (∀ vm : VMState, Lookup vm "\\" = some vm.rootNS)
    ∧ (∀ (vm : VMState) (rest : List Char), rest ≠ [] →
        Lookup vm (String.mk ('\\' :: rest)) = scopeFindRelative vm.rootNS rest)
    ∧ (∀ (ent : Entity) (rel : List Char), rel ≠ [] →
        findChildNamed ent (String.mk (List.take 4 rel)) = none →
        scopeFindRelative ent rel = none) := by
  refine ⟨?_, ?_, ?_, ?_⟩
  · intro vm s h
    cases s with
    | mk data =>
      cases data with
      | nil => rfl
      | cons c rest =>
        rcases h with h | h
        · have hdata : (c :: rest : List Char) = "".data := congrArg String.data h
          simp at hdata
        · have hc : c ≠ '\\' := by simpa using h
          simp [Lookup, hc]
  · intro vm
    simp [Lookup]
  · intro vm rest hne
    cases rest with
    | nil => exact absurd rfl hne
    | cons c2 r2 => simp [Lookup]
  · intro ent rel hne hfind
    cases rel with
    | nil => exact absurd rfl hne
    | cons c rest =>
      simp only [List.take_succ_cons] at hfind
      simp [scopeFindRelative, hfind]

/-- Witness for C4: on a fresh VM, the empty path and an unknown
top-level segment are not found, and the root path returns the root. -/
theorem Lookup_path_resolution_witness :
    Lookup NewVM "" = none ∧ Lookup NewVM "\\" = some NewVM.rootNS
    ∧ Lookup NewVM "\\ABCD" = none := by
  refine ⟨Lookup_path_resolution.1 NewVM "" (Or.inl rfl),
    Lookup_path_resolution.2.1 NewVM, ?_⟩
  have h3 := Lookup_path_resolution.2.2.1 NewVM ['A', 'B', 'C', 'D'] (by simp)
  have h4 := Lookup_path_resolution.2.2.2 NewVM.rootNS ['A', 'B', 'C', 'D']
    (by simp) (by simp [findChildNamed, NewVM, defaultACPIScopes, entChildren, getName])
  calc Lookup NewVM "\\ABCD"
      = scopeFindRelative NewVM.rootNS ['A', 'B', 'C', 'D'] := h3
    _ = none := h4

lemma checkEntities_width_eq (vm3 vm4 : VMState) (errOpt : Option VMError)
    (h : checkEntities vm3 = some (vm4, errOpt)) :
    vm4.sizeOfIntInBits = vm3.sizeOfIntInBits := by
  unfold checkEntities at h
  cases hres : checkEnt vm3.sizeOfIntInBits vm3.rootNS none with
  | none => rw [hres] at h; exact absurd h (by simp)
  | some p =>
    cases p with
    | mk root2 err =>
      rw [hres] at h
      simp only [Option.some.injEq, Prod.mk.injEq] at h
      rw [← h.1]

lemma InitLoop_SSDT_width (r : String → Option TableHeader) (p : ParseAMLFn)
    (vm : VMState) :
    (InitLoop r p [(1, "SSDT")] vm).1.sizeOfIntInBits = vm.sizeOfIntInBits := by
  cases hr : r "SSDT" with
  | none => simp [InitLoop, hr]
  | some header =>
    cases hp : p 2 "SSDT" header vm.rootNS with
    | error e => simp [InitLoop, hr, hp]
    | ok root2 => simp [InitLoop, hr, hp]

lemma InitLoop_DSDT_step (r : String → Option TableHeader) (p : ParseAMLFn)
    (vm : VMState) (header : TableHeader) (root1 : Entity)
    (hres : r "DSDT" = some header)
    (hparse : p 1 "DSDT" header vm.rootNS = .ok root1) :
    InitLoop r p [(0, "DSDT"), (1, "SSDT")] vm
      = InitLoop r p [(1, "SSDT")] { vm with rootNS := root1, sizeOfIntInBits := if 2 ≤ header.revision then 64 else 32 } := by
  simp [InitLoop, hres, hparse]

lemma Init_width_of_dsdt (r : String → Option TableHeader) (p : ParseAMLFn)
    (vm : VMState) (header : TableHeader) (root1 : Entity)
    (hres : r "DSDT" = some header)
    (hparse : p 1 "DSDT" header vm.rootNS = .ok root1) :
    ∀ vm2 errOpt, Init r p vm = some (vm2, errOpt) →
      vm2.sizeOfIntInBits = if 2 ≤ header.revision then 64 else 32 := by
  intro vm2 errOpt hinit
  unfold Init at hinit
  rw [InitLoop_DSDT_step r p vm header root1 hres hparse] at hinit
  generalize hvmD : { vm with rootNS := root1, sizeOfIntInBits := if 2 ≤ header.revision then 64 else 32 } = vmD at hinit
  have hvmDw : vmD.sizeOfIntInBits = if 2 ≤ header.revision then 64 else 32 := by
    rw [← hvmD]
  cases hloop : InitLoop r p [(1, "SSDT")] vmD with
  | mk vm1 errOpt1 =>
    have hw : vm1.sizeOfIntInBits = if 2 ≤ header.revision then 64 else 32 := by
      have hpres := InitLoop_SSDT_width r p vmD
      rw [hloop] at hpres
      rw [hpres, hvmDw]
    rw [hloop] at hinit
    cases errOpt1 with
    | some e =>
      simp only [Option.some.injEq, Prod.mk.injEq] at hinit
      rw [← hinit.1]
      exact hw
    | none =>
      have hck := checkEntities_width_eq { vm1 with jumpTablePopulated := true }
        vm2 errOpt hinit
      rw [hck]
      exact hw

/-- C5: when `Init` parses a DSDT whose header revision is at least 2
the integer width is 64 bits, and 32 bits for revisions 0 and 1; the
assignment is made right after the primary table is parsed (it holds in
the returned state whatever happens afterwards) and the
static-initialization pass never changes the field. -/
theorem Init_sets_integer_width :
    (∀ (r : String → Option TableHeader) (p : ParseAMLFn) (vm : VMState)
        (header : TableHeader) (root1 : Entity),
      r "DSDT" = some header →
      p 1 "DSDT" header vm.rootNS = .ok root1 →
      ∀ vm2 errOpt, Init r p vm = some (vm2, errOpt) →
        vm2.sizeOfIntInBits = if 2 ≤ header.revision then 64 else 32)
    ∧ (∀ (vm3 vm4 : VMState) (errOpt : Option VMError),
        checkEntities vm3 = some (vm4, errOpt) →
          vm4.sizeOfIntInBits = vm3.sizeOfIntInBits) :=
  ⟨fun r p vm header root1 hres hparse =>
      Init_width_of_dsdt r p vm header root1 hres hparse,
   checkEntities_width_eq⟩

lemma Init_rDSDT_eval : Init rDSDT idParse NewVM = some (vmInit64, none) := by
  simp [Init, InitLoop, rDSDT, idParse, checkEntities, NewVM, vmInit64,
    defaultACPIScopes, checkEnt, checkEntList]

/-- Witness for C5: a revision-2 DSDT yields a 64-bit integer width in
the state `Init` returns. -/
theorem Init_sets_integer_width_witness :
    vmInit64.sizeOfIntInBits
      = if 2 ≤ (⟨2⟩ : TableHeader).revision then 64 else 32 :=
  Init_sets_integer_width.1 rDSDT idParse NewVM ⟨2⟩ defaultACPIScopes
    rfl rfl vmInit64 none Init_rDSDT_eval

/-- C6: `Init` asks the resolver for the DSDT and SSDT roles by name;
an absent role is skipped without error; a decode error on a present
table makes `Init` return immediately with the parser's
module-prefixed message, the VM state untouched — so the dispatch
table is not built and the static-initialization pass does not run. -/
theorem Init_table_loading :
    (∀ (r : String → Option TableHeader) (p : ParseAMLFn) (vm : VMState)
        (th : Nat) (name : String) (rest : List (Nat × String)),
        r name = none →
        InitLoop r p ((th, name) :: rest) vm = InitLoop r p rest vm)
    ∧ (∀ (r : String → Option TableHeader) (p : ParseAMLFn) (vm : VMState)
        (header : TableHeader) (e : AMLParseError),
        r "DSDT" = some header →
        p 1 "DSDT" header vm.rootNS = .error e →
        Init r p vm = some (vm, some ⟨e.module ++ ": " ++ e.message⟩))
    ∧ (∀ (r : String → Option TableHeader) (p : ParseAMLFn) (vm : VMState)
        (header : TableHeader) (e : AMLParseError),
        r "DSDT" = none → r "SSDT" = some header →
        p 2 "SSDT" header vm.rootNS = .error e →
        Init r p vm = some (vm, some ⟨e.module ++ ": " ++ e.message⟩)) := by
  refine ⟨?_, ?_, ?_⟩
  · intro r p vm th name rest hnone
    simp [InitLoop, hnone]
  · intro r p vm header e hres hparse
    simp [Init, InitLoop, hres, hparse]
  · intro r p vm header e hd hs hparse
    simp [Init, InitLoop, hd, hs, hparse]

/-- Witness for C6: a decode failure in a present DSDT surfaces as the
module-prefixed error and leaves the fresh VM untouched. -/
theorem Init_table_loading_witness :
    Init rDSDT failParse NewVM = some (NewVM, some ⟨"aml: invalid opcode"⟩) :=
  Init_table_loading.2.1 rDSDT failParse NewVM ⟨2⟩ ⟨"aml", "invalid opcode"⟩
    rfl rfl

/-- Counterexample to C8 as stated: with a resolver offering no tables
at all, `Init` succeeds while the integer width keeps its zero initial
value — the width is not one of 32/64 for every successful `Init`. -/
theorem Init_width_not_binary_without_tables :
    Init emptyResolver idParse NewVM
      = some ({ NewVM with jumpTablePopulated := true }, none)
    ∧ ({ NewVM with jumpTablePopulated := true } : VMState).sizeOfIntInBits ≠ 32
    ∧ ({ NewVM with jumpTablePopulated := true } : VMState).sizeOfIntInBits ≠ 64 := by
  refine ⟨?_, by simp [NewVM], by simp [NewVM]⟩
  simp [Init, InitLoop, emptyResolver, checkEntities, NewVM, defaultACPIScopes,
    checkEnt, checkEntList]

/-- C8 amended: after every successful `Init` call in which the
resolver did provide a primary (DSDT) table, the VM's integer width is
exactly one of 32 or 64 bits; without a DSDT the width keeps the zero
value it was constructed with. -/
theorem Init_width_binary_with_primary :
    ∀ (r : String → Option TableHeader) (p : ParseAMLFn) (vm vm2 : VMState)
      (header : TableHeader),
      r "DSDT" = some header →
      Init r p vm = some (vm2, none) →
      vm2.sizeOfIntInBits = 32 ∨ vm2.sizeOfIntInBits = 64 := by
  intro r p vm vm2 header hres hinit
  cases hparse : p 1 "DSDT" header vm.rootNS with
  | error e =>
    have hfail : Init r p vm = some (vm, some ⟨e.module ++ ": " ++ e.message⟩) := by
      simp [Init, InitLoop, hres, hparse]
    rw [hfail] at hinit
    simp at hinit
  | ok root1 =>
    have hw := Init_width_of_dsdt r p vm header root1 hres hparse vm2 none hinit
    by_cases hrev : 2 ≤ header.revision
    · right; rw [hw, if_pos hrev]
    · left; rw [hw, if_neg hrev]

/-- Witness for the amended C8: the revision-2 DSDT run yields one of
the two widths. -/
theorem Init_width_binary_with_primary_witness :
    vmInit64.sizeOfIntInBits = 32 ∨ vmInit64.sizeOfIntInBits = 64 :=
  Init_width_binary_with_primary rDSDT idParse NewVM vmInit64 ⟨2⟩
    rfl Init_rDSDT_eval

